import Mathlib

/-!
Shallow embedding of `rust-vanity/src/lib.rs` (the `web-vanity` search core).

Machine integers are modelled as `Nat` with explicit reduction modulo `2 ^ 64`
where the Rust `u64` arithmetic wraps.  Byte buffers are `List Nat` (each
element `< 256`), Rust `String`/`&str` values are Lean `String`s.  The panic of
`try_into().unwrap()` in the constructor is modelled by an `Option` return.
`usize` is taken to be 64 bits wide, matching the target on which the crate's
own test suite runs, so `state as usize` is the identity on `u64` values.
-/

set_option maxRecDepth 100000
set_option maxHeartbeats 2000000

def U64 : Nat := 2 ^ 64

/-- The byte string `ALPHANUMERIC_CHARS` from the source (line 22). -/
def ALPHANUMERIC_CHARS : List Nat :=
  (("ABCDEFGHJKLMNPQRSTUVWXYZabcdefghijkmnopqrstuvwxyz0123456789").data).map Char.toNat

/-- One emission sequence of `generate_seed_from_counter`: starting from a
64-bit working value, emit `steps` bytes, each time indexing the alphabet with
`state % ALPHANUMERIC_CHARS.length` and then shifting the state right by 8. -/
def seedChars (state : Nat) : Nat → List Nat
  | 0 => []
  | k + 1 =>
    ALPHANUMERIC_CHARS.getD (state % ALPHANUMERIC_CHARS.length) 0 ::
      seedChars (state >>> 8) k

/-- The source's `generate_seed_from_counter` (lines 24-39): bytes 0-7 come
from `state1 = counter`, bytes 8-15 from `state2 = counter *w 0x9E3779B97F4A7C15`. -/
def generate_seed_from_counter (counter : Nat) : List Nat :=
  let state1 := counter % U64
  let state2 := counter * 0x9E3779B97F4A7C15 % U64
  seedChars state1 8 ++ seedChars state2 8

/-- ASCII lowercase of a string, character by character; agrees with Rust's
`str::to_lowercase` on ASCII input (the only input the core produces). -/
def toLowerString (s : String) : String :=
  ⟨s.data.map Char.toLower⟩

/-- The source's `maybe_bs58_aware_lowercase` (lines 41-47). -/
def maybe_bs58_aware_lowercase (pubkey : String) (case_insensitive : Bool) : String :=
  if case_insensitive then toLowerString pubkey else pubkey

/-- Rust's `str::starts_with` for a string pattern. -/
def strStartsWith (t p : String) : Bool :=
  p.data.isPrefixOf t.data

/-- Rust's `str::ends_with` for a string pattern. -/
def strEndsWith (t p : String) : Bool :=
  p.data.isSuffixOf t.data

/-- Reinterpret a byte buffer as text (`String::from_utf8_lossy`); all buffers
so converted by the core hold ASCII bytes, where the conversion is exact. -/
def bytesToString (l : List Nat) : String :=
  ⟨l.map Char.ofNat⟩

/-! ## SHA-256 (the `sha2` crate's `Sha256`), as a pure function on byte lists -/

def M32 : Nat := 2 ^ 32

def w32 (x : Nat) : Nat := x % M32

def rotr (n x : Nat) : Nat := ((x >>> n) ||| (x <<< (32 - n))) % M32

def shaCh (e f g : Nat) : Nat := (e &&& f) ^^^ ((e ^^^ 0xffffffff) &&& g)

def shaMaj (a b c : Nat) : Nat := (a &&& b) ^^^ (a &&& c) ^^^ (b &&& c)

def bigSigma0 (x : Nat) : Nat := rotr 2 x ^^^ rotr 13 x ^^^ rotr 22 x

def bigSigma1 (x : Nat) : Nat := rotr 6 x ^^^ rotr 11 x ^^^ rotr 25 x

def smallSigma0 (x : Nat) : Nat := rotr 7 x ^^^ rotr 18 x ^^^ (x >>> 3)

def smallSigma1 (x : Nat) : Nat := rotr 17 x ^^^ rotr 19 x ^^^ (x >>> 10)

/-- The eight 32-bit words of a SHA-256 chaining value. -/
structure Hash8 where
  a : Nat
  b : Nat
  c : Nat
  d : Nat
  e : Nat
  f : Nat
  g : Nat
  h : Nat
  deriving DecidableEq

/-- The eight initial chaining words of SHA-256 (FIPS 180-4), here written in
decimal. -/
def shaInit : Hash8 :=
  ⟨1779033703, 3144134277, 1013904242, 2773480762,
   1359893119, 2600822924, 528734635, 1541459225⟩

/-- The 64 round constants of SHA-256 (FIPS 180-4), here written in decimal. -/
def shaK : List Nat :=
  [1116352408, 1899447441, 3049323471, 3921009573, 961987163, 1508970993,
   2453635748, 2870763221, 3624381080, 310598401, 607225278, 1426881987,
   1925078388, 2162078206, 2614888103, 3248222580, 3835390401, 4022224774,
   264347078, 604807628, 770255983, 1249150122, 1555081692, 1996064986,
   2554220882, 2821834349, 2952996808, 3210313671, 3336571891, 3584528711,
   113926993, 338241895, 666307205, 773529912, 1294757372, 1396182291,
   1695183700, 1986661051, 2177026350, 2456956037, 2730485921, 2820302411,
   3259730800, 3345764771, 3516065817, 3600352804, 4094571909, 275423344,
   430227734, 506948616, 659060556, 883997877, 958139571, 1322822218,
   1537002063, 1747873779, 1955562222, 2024104815, 2227730452, 2361852424,
   2428436474, 2756734187, 3204031479, 3329325298]

/-- Big-endian bytes of a number, `k` bytes wide. -/
def beBytes : Nat → Nat → List Nat
  | 0, _ => []
  | k + 1, n => (n >>> (8 * k)) % 256 :: beBytes k n

/-- Number of zero bytes of SHA-256 padding for a message of `len` bytes. -/
def padZeros (len : Nat) : Nat := (120 - (len + 1) % 64) % 64

/-- SHA-256 padding: `0x80`, zeros, then the bit length as 8 big-endian bytes. -/
def padMessage (msg : List Nat) : List Nat :=
  msg ++ 0x80 :: List.replicate (padZeros msg.length) 0 ++ beBytes 8 (msg.length * 8)

/-- Group bytes into big-endian 32-bit words. -/
def bytesToWords : List Nat → List Nat
  | b0 :: b1 :: b2 :: b3 :: rest =>
    (((b0 * 256 + b1) * 256 + b2) * 256 + b3) :: bytesToWords rest
  | _ => []

/-- One extension step of the SHA-256 message schedule, producing word `t`
from the words so far (`t = w.length`). -/
def extendStep (w : List Nat) : Nat :=
  let t := w.length
  w32 (smallSigma1 (w.getD (t - 2) 0) + w.getD (t - 7) 0 +
    smallSigma0 (w.getD (t - 15) 0) + w.getD (t - 16) 0)

/-- Extend the 16 block words to the full 64-word schedule. -/
def extendSchedule (w : List Nat) : Nat → List Nat
  | 0 => w
  | k + 1 => extendSchedule (w ++ [extendStep w]) k

/-- One round of the SHA-256 compression function. -/
def shaRound (st : Hash8) (kw : Nat × Nat) : Hash8 :=
  let t1 := w32 (st.h + bigSigma1 st.e + shaCh st.e st.f st.g + kw.1 + kw.2)
  let t2 := w32 (bigSigma0 st.a + shaMaj st.a st.b st.c)
  ⟨w32 (t1 + t2), st.a, st.b, st.c, w32 (st.d + t1), st.e, st.f, st.g⟩

/-- Process one 64-byte block into the chaining value. -/
def processBlock (hv : Hash8) (block : List Nat) : Hash8 :=
  let ws := extendSchedule (bytesToWords block) 48
  let st := (shaK.zip ws).foldl shaRound hv
  ⟨w32 (hv.a + st.a), w32 (hv.b + st.b), w32 (hv.c + st.c), w32 (hv.d + st.d),
   w32 (hv.e + st.e), w32 (hv.f + st.f), w32 (hv.g + st.g), w32 (hv.h + st.h)⟩

/-- Process the padded message 64 bytes at a time.  The fuel argument bounds
the number of blocks; it is instantiated with the padded byte length, which
always suffices since every block consumes 64 bytes. -/
def processBlocksF : Nat → Hash8 → List Nat → Hash8
  | 0, hv, _ => hv
  | _ + 1, hv, [] => hv
  | fuel + 1, hv, x :: rest =>
    processBlocksF fuel (processBlock hv ((x :: rest).take 64)) ((x :: rest).drop 64)

/-- Big-endian bytes of one 32-bit word. -/
def wordBE (x : Nat) : List Nat :=
  [(x >>> 24) % 256, (x >>> 16) % 256, (x >>> 8) % 256, x % 256]

def hashToBytes (hv : Hash8) : List Nat :=
  wordBE hv.a ++ wordBE hv.b ++ wordBE hv.c ++ wordBE hv.d ++
    wordBE hv.e ++ wordBE hv.f ++ wordBE hv.g ++ wordBE hv.h

/-- SHA-256 of a byte list, as the 32-byte digest. -/
def sha256Bytes (msg : List Nat) : List Nat :=
  let padded := padMessage msg
  hashToBytes (processBlocksF padded.length shaInit padded)

/-! ## Base58 (the `five8` crate's `encode_32`) -/

/-- The standard Bitcoin/Solana base58 alphabet, as bytes. -/
def BASE58_CHARS : List Nat :=
  (("123456789ABCDEFGHJKLMNPQRSTUVWXYZabcdefghijkmnopqrstuvwxyz").data).map Char.toNat

/-- Base-58 digits of `n`, least significant first.  The fuel 44 covers all
values below `58 ^ 44`, in particular every 256-bit number, matching the
codec's documented maximum output length `BASE58_ENCODED_32_MAX_LEN = 44`
for 32-byte input. -/
def base58DigitsF : Nat → Nat → List Nat
  | 0, _ => []
  | fuel + 1, n =>
    if n = 0 then [] else BASE58_CHARS.getD (n % 58) 0 :: base58DigitsF fuel (n / 58)

/-- The byte buffer interpreted as a big-endian number. -/
def bytesToNatBE (l : List Nat) : Nat :=
  l.foldl (fun acc b => acc * 256 + b) 0

/-- Leading zero bytes of the buffer (each becomes a leading base58 one). -/
def countLeadingZeros (l : List Nat) : Nat :=
  (l.takeWhile (fun b => b == 0)).length

/-- The `five8::encode_32` codec: standard base58 of a 32-byte buffer
(49 is the byte of the character one). -/
def encode_32 (bytes : List Nat) : String :=
  bytesToString
    (List.replicate (countLeadingZeros bytes) 49 ++ (base58DigitsF 44 (bytesToNatBE bytes)).reverse)

/-! ## The searcher -/

/-- The source's `MatchType` enum (lines 64-69). -/
inductive MatchType where
  | Prefix (p : String)
  | Suffix (s : String)
  | Both (p s : String)
  deriving DecidableEq

/-- The match test of `search_batch` (source lines 162-169). -/
def MatchType.checkMatch (m : MatchType) (t : String) : Bool :=
  match m with
  | .Prefix p => strStartsWith t p
  | .Suffix sf => strEndsWith t sf
  | .Both p sf => strStartsWith t p && strEndsWith t sf

/-- The source's `VanityResult` (lines 194-199). -/
structure VanityResult where
  address : String
  seed : String
  attempts : Nat
  deriving DecidableEq

/-- The source's `VanitySearcher` (lines 71-80). -/
structure VanitySearcher where
  base_pubkey : List Nat
  owner_pubkey : List Nat
  match_type : MatchType
  case_insensitive : Bool
  count : Nat
  count_offset : Nat
  should_exit : Bool
  deriving DecidableEq

/-- The match-spec construction of `VanitySearcher::new` (lines 93-124). -/
def mkMatchType (pfx sfx : Option String) (case_insensitive : Bool) : MatchType :=
  match pfx, sfx with
  | some p, some s =>
    MatchType.Both (if case_insensitive then toLowerString p else p)
      (if case_insensitive then toLowerString s else s)
  | some p, none => MatchType.Prefix (if case_insensitive then toLowerString p else p)
  | none, some s => MatchType.Suffix (if case_insensitive then toLowerString s else s)
  | none, none => MatchType.Prefix ("")

/-- The source's `VanitySearcher::new` (lines 85-135).  The
`try_into().unwrap()` panic on a key slice whose length is not 32 is modelled
by returning `none`; on success the fields are initialized as in the source. -/
def VanitySearcher.new (base_pubkey owner_pubkey : List Nat) (pfx sfx : Option String)
    (case_insensitive : Bool) (count_offset : Nat) : Option VanitySearcher :=
  let match_type := mkMatchType pfx sfx case_insensitive
  if base_pubkey.length = 32 then
    if owner_pubkey.length = 32 then
      some { base_pubkey, owner_pubkey, match_type, case_insensitive,
             count := 0, count_offset, should_exit := false }
    else none
  else none

/-- The loop body of `search_batch` (lines 138-181), iterated `batch` times.
The `Sha256` context that the source resets and reuses is modelled by the pure
`sha256Bytes` applied to each iteration's input. -/
def searchBatchAux : VanitySearcher → Nat → Option VanityResult × VanitySearcher
  | s, 0 => (none, s)
  | s, batch + 1 =>
    if s.should_exit then (none, s)
    else
      let seed := generate_seed_from_counter ((s.count + s.count_offset) % U64)
      let pubkey_bytes := sha256Bytes (s.base_pubkey ++ seed ++ s.owner_pubkey)
      let pubkey := encode_32 pubkey_bytes
      let out_str_target_check := maybe_bs58_aware_lowercase pubkey s.case_insensitive
      let s1 := { s with count := (s.count + 1) % U64 }
      if s.match_type.checkMatch out_str_target_check then
        (some ⟨pubkey, bytesToString seed, s1.count⟩, s1)
      else
        searchBatchAux s1 batch

/-- The source's `VanitySearcher::search_batch` (lines 138-181), returning the
optional result together with the updated searcher state. -/
def VanitySearcher.search_batch (s : VanitySearcher) (batch_size : Nat) :
    Option VanityResult × VanitySearcher :=
  searchBatchAux s batch_size

/-- The source's `VanitySearcher::stop` (lines 183-186). -/
def VanitySearcher.stop (s : VanitySearcher) : VanitySearcher :=
  { s with should_exit := true }

/-- The source's `attempts` getter (lines 188-191). -/
def VanitySearcher.attempts (s : VanitySearcher) : Nat :=
  s.count

/-! ## Derived views used to state theorems -/

/-- The encoded candidate the loop derives when the counter field holds `c`:
base58 of the SHA-256 digest of `base_pubkey || seed || owner_pubkey`. -/
def candidatePubkey (s : VanitySearcher) (c : Nat) : String :=
  encode_32 (sha256Bytes
    (s.base_pubkey ++ generate_seed_from_counter ((c + s.count_offset) % U64) ++ s.owner_pubkey))

/-- Whether the candidate derived at counter value `c` passes the match test. -/
def candidateCheck (s : VanitySearcher) (c : Nat) : Bool :=
  s.match_type.checkMatch (maybe_bs58_aware_lowercase (candidatePubkey s c) s.case_insensitive)

/-- The seed text the result would carry for counter value `c`. -/
def seedText (s : VanitySearcher) (c : Nat) : String :=
  bytesToString (generate_seed_from_counter ((c + s.count_offset) % U64))

/-- Modelled from the spec: the 58-symbol alphabet the specification
describes — digits and letters excluding the visually ambiguous characters
0 (48), O (79), I (73) and l (108) — as the set of its byte values.  Used
only to compare the specification's wording against the source's alphabet. -/
def claimedAlphabet58 : List Nat :=
  ((("123456789ABCDEFGHJKLMNPQRSTUVWXYZabcdefghijkmnopqrstuvwxyz").data).map Char.toNat)

/-! ## Helper lemmas -/

lemma alphanumeric_length : ALPHANUMERIC_CHARS.length = 59 := by decide

lemma alphanumeric_getD_mem : ∀ i, i < 59 → ALPHANUMERIC_CHARS.getD i 0 ∈ ALPHANUMERIC_CHARS := by
  decide

lemma seedChars_length (k : Nat) : ∀ state, (seedChars state k).length = k := by
  induction k with
  | zero => intro state; rfl
  | succ k ih => intro state; simp [seedChars, ih]

lemma seedChars_mem (k : Nat) :
    ∀ state b, b ∈ seedChars state k → b ∈ ALPHANUMERIC_CHARS := by
  induction k with
  | zero => intro state b hb; simp [seedChars] at hb
  | succ k ih =>
    intro state b hb
    simp only [seedChars, List.mem_cons] at hb
    rcases hb with hb | hb
    · subst hb
      exact alphanumeric_getD_mem _ (Nat.mod_lt _ (by rw [alphanumeric_length]; omega))
    · exact ih _ _ hb

lemma seedChars_getD (k : Nat) :
    ∀ state i, i < k →
      (seedChars state k).getD i 0 =
        ALPHANUMERIC_CHARS.getD ((state >>> (8 * i)) % 59) 0 := by
  induction k with
  | zero => intro state i hi; omega
  | succ k ih =>
    intro state i hi
    cases i with
    | zero => simp [seedChars, alphanumeric_length]
    | succ i =>
      have h8 : 8 * (i + 1) = 8 + 8 * i := by ring
      simp only [seedChars, List.getD_cons_succ, ih (state >>> 8) i (by omega), h8,
        Nat.shiftRight_add]

lemma generate_seed_length (counter : Nat) :
    (generate_seed_from_counter counter).length = 16 := by
  simp [generate_seed_from_counter, seedChars_length]

/-- `candidateCheck` ignores the mutable `count` field. -/
lemma candidateCheck_set_count (s : VanitySearcher) (v c : Nat) :
    candidateCheck { s with count := v } c = candidateCheck s c := rfl

lemma candidatePubkey_set_count (s : VanitySearcher) (v c : Nat) :
    candidatePubkey { s with count := v } c = candidatePubkey s c := rfl

lemma seedText_set_count (s : VanitySearcher) (v c : Nat) :
    seedText { s with count := v } c = seedText s c := rfl

/-- Unfolding of one loop iteration of `search_batch`. -/
lemma searchBatchAux_succ (s : VanitySearcher) (b : Nat) :
    searchBatchAux s (b + 1) =
      if s.should_exit then (none, s)
      else if candidateCheck s s.count then
        (some ⟨candidatePubkey s s.count, seedText s s.count, (s.count + 1) % U64⟩,
          { s with count := (s.count + 1) % U64 })
      else searchBatchAux { s with count := (s.count + 1) % U64 } b := rfl

lemma searchBatchAux_stopped (s : VanitySearcher) (h : s.should_exit = true) (b : Nat) :
    searchBatchAux s b = (none, s) := by
  cases b with
  | zero => rfl
  | succ b => rw [searchBatchAux_succ, if_pos h]

lemma searchBatchAux_exit_eq (b : Nat) :
    ∀ s : VanitySearcher, ((searchBatchAux s b).2).should_exit = s.should_exit := by
  induction b with
  | zero => intro s; rfl
  | succ b ih =>
    intro s
    rw [searchBatchAux_succ]
    by_cases hex : s.should_exit
    · simp [hex]
    · simp only [hex, if_false, Bool.false_eq_true]
      by_cases hc : candidateCheck s s.count
      · simp [hc]
      · simp only [hc, if_false, Bool.false_eq_true, ih]

/-- Master characterization of a successful batch: a returned result comes
from the first matching candidate, counted from the entry value of `count`. -/
lemma searchBatchAux_eq_some (b : Nat) :
    ∀ (s : VanitySearcher) (r : VanityResult) (s' : VanitySearcher),
      s.count + b < U64 →
      searchBatchAux s b = (some r, s') →
      s.should_exit = false ∧
      ∃ k, k < b ∧
        candidateCheck s (s.count + k) = true ∧
        (∀ j, j < k → candidateCheck s (s.count + j) = false) ∧
        s'.count = s.count + k + 1 ∧
        r.attempts = s.count + k + 1 ∧
        r.address = candidatePubkey s (s.count + k) ∧
        r.seed = seedText s (s.count + k) := by
  induction b with
  | zero =>
    intro s r s' hU he
    simp [searchBatchAux] at he
  | succ b ih =>
    intro s r s' hU he
    rw [searchBatchAux_succ] at he
    by_cases hex : s.should_exit
    · simp [hex] at he
    · rw [if_neg hex] at he
      have hmod : (s.count + 1) % U64 = s.count + 1 :=
        Nat.mod_eq_of_lt (by omega)
      by_cases hc : candidateCheck s s.count
      · rw [if_pos hc, Prod.mk.injEq] at he
        obtain ⟨he1, he2⟩ := he
        refine ⟨by simpa using hex, 0, by omega, by simpa using hc, by omega, ?_, ?_, ?_, ?_⟩
        · rw [← he2]; simpa using hmod
        · rw [← Option.some.injEq] at he1
          simp only [Option.some.injEq] at he1
          rw [← he1]; simpa using hmod
        · rw [← Option.some.injEq] at he1
          simp only [Option.some.injEq] at he1
          rw [← he1]; simp
        · rw [← Option.some.injEq] at he1
          simp only [Option.some.injEq] at he1
          rw [← he1]; simp
      · rw [if_neg hc, hmod] at he
        have hcnt : ({ s with count := s.count + 1 } : VanitySearcher).count + b < U64 := by
          simpa using (by omega : s.count + 1 + b < U64)
        obtain ⟨hex', k, hk, hck, hprev, hs', hatt, haddr, hseed⟩ := ih _ r s' hcnt he
        refine ⟨by simpa using hex', k + 1, by omega, ?_, ?_, ?_, ?_, ?_, ?_⟩
        · rw [candidateCheck_set_count] at hck
          have : s.count + 1 + k = s.count + (k + 1) := by omega
          rwa [this] at hck
        · intro j hj
          cases j with
          | zero => simpa using hc
          | succ j =>
            have hjk := hprev j (by omega)
            rw [candidateCheck_set_count] at hjk
            have : s.count + 1 + j = s.count + (j + 1) := by omega
            rwa [this] at hjk
        · simp only at hs'; omega
        · simp only at hatt; omega
        · rw [candidatePubkey_set_count] at haddr
          have : s.count + 1 + k = s.count + (k + 1) := by omega
          rwa [this] at haddr
        · rw [seedText_set_count] at hseed
          have : s.count + 1 + k = s.count + (k + 1) := by omega
          rwa [this] at hseed

lemma searchBatchAux_first (s : VanitySearcher) (b : Nat)
    (h1 : s.should_exit = false) (h2 : candidateCheck s s.count = true) :
    searchBatchAux s (b + 1) =
      (some ⟨candidatePubkey s s.count, seedText s s.count, (s.count + 1) % U64⟩,
        { s with count := (s.count + 1) % U64 }) := by
  rw [searchBatchAux_succ, if_neg (by simp [h1]), if_pos h2]

lemma sha256Bytes_length (msg : List Nat) : (sha256Bytes msg).length = 32 := by
  simp [sha256Bytes, hashToBytes, wordBE]

/-! ## Shared concrete values for witnesses -/

def zeros32 : List Nat := List.replicate 32 0

/-- A searcher over all-zero keys with no pattern (hence the default empty
prefix), case-sensitive, offset 0, freshly constructed. -/
def sEmptyPre : VanitySearcher :=
  ⟨zeros32, zeros32, MatchType.Prefix (""), false, 0, 0, false⟩

/-- The result `sEmptyPre.search_batch 1` returns (first candidate matches the
empty prefix). -/
def rEmptyPre : VanityResult :=
  ⟨("CgcGWMJ9V8fLeU3LdMa7Dx3vTg7Ztm8sTPV47UayCR3P"), ("AAAAAAAAAAAAAAAA"), 1⟩

def sEmptyPre1 : VanitySearcher := { sEmptyPre with count := 1 }

/-! ## Claims -/

/-- C1: constructing a `VanitySearcher` fails hard (the `try_into().unwrap()`
panic, modelled as `none`) exactly when the base key or the owner key is not
32 bytes long, before any searcher state exists; for 32-byte keys it
succeeds. -/
theorem C1_new_validates_key_length (base_pubkey owner_pubkey : List Nat)
    (pfx sfx : Option String) (case_insensitive : Bool) (count_offset : Nat) :
    (VanitySearcher.new base_pubkey owner_pubkey pfx sfx case_insensitive
      count_offset).isSome = true ↔
      base_pubkey.length = 32 ∧ owner_pubkey.length = 32 := by
  unfold VanitySearcher.new
  by_cases h1 : base_pubkey.length = 32 <;> by_cases h2 : owner_pubkey.length = 32 <;>
    simp [h1, h2]

theorem C1_witness :
    (VanitySearcher.new zeros32 zeros32 none none false 0).isSome = true ∧
    (VanitySearcher.new [1, 2, 3] zeros32 none none false 0).isSome ≠ true :=
  ⟨(C1_new_validates_key_length zeros32 zeros32 none none false 0).mpr (by decide),
   fun h => absurd ((C1_new_validates_key_length [1, 2, 3] zeros32 none none false 0).mp h).1
     (by decide)⟩

/-- C2 counterexample: the seed for counter 49 contains the byte 48 (the
digit zero), which is not a member of the 58-symbol alphabet the claim
describes (digits and letters excluding 0, O, I, l); the source's alphabet
has 59 symbols and includes the digit zero. -/
theorem C2_counterexample :
    48 ∈ generate_seed_from_counter 49 ∧ 48 ∉ claimedAlphabet58 := by decide

/-- C2 (amended): every byte of any generated seed is a member of the fixed
59-symbol alphanumeric alphabet `ALPHANUMERIC_CHARS` (digits and letters
excluding O, I and l, but including the digit 0). -/
theorem C2_seed_bytes_in_alphabet (counter : Nat) :
    ∀ b ∈ generate_seed_from_counter counter, b ∈ ALPHANUMERIC_CHARS := by
  intro b hb
  simp only [generate_seed_from_counter, List.mem_append] at hb
  rcases hb with hb | hb
  · exact seedChars_mem 8 _ b hb
  · exact seedChars_mem 8 _ b hb

theorem C2_witness : 65 ∈ ALPHANUMERIC_CHARS :=
  C2_seed_bytes_in_alphabet 0 65 (by decide)

/-- C3 counterexample: the seed for counter 108 contains the byte 48 (the
digit zero), which the claimed 58-symbol alphabet excludes, so no indexing
of that alphabet can produce it; the source indexes a 59-symbol alphabet
with `state_i mod 59`. -/
theorem C3_counterexample :
    48 ∈ generate_seed_from_counter 108 ∧ 48 ∉ claimedAlphabet58 := by decide

/-- C3 (amended): the seed generator computes `state1 = n mod 2^64` and
`state2 = n * 0x9E3779B97F4A7C15 mod 2^64` and emits 16 bytes, byte `i`
(for `i < 8`) being the 59-symbol alphabet at index `state1 >>> 8i mod 59`
and byte `i + 8` the alphabet at index `state2 >>> 8i mod 59`; the seed is a
pure function of `n`, so repeated calls agree by definition. -/
theorem C3_seed_formula (counter i : Nat) (hi : i < 8) :
    (generate_seed_from_counter counter).length = 16 ∧
    (generate_seed_from_counter counter).getD i 0 =
      ALPHANUMERIC_CHARS.getD (((counter % U64) >>> (8 * i)) % 59) 0 ∧
    (generate_seed_from_counter counter).getD (i + 8) 0 =
      ALPHANUMERIC_CHARS.getD (((counter * 0x9E3779B97F4A7C15 % U64) >>> (8 * i)) % 59) 0 := by
  refine ⟨generate_seed_length counter, ?_, ?_⟩
  · simp only [generate_seed_from_counter]
    rw [List.getD_append _ _ _ i (by rw [seedChars_length]; omega)]
    exact seedChars_getD 8 _ i hi
  · simp only [generate_seed_from_counter]
    rw [List.getD_append_right _ _ _ _ (by rw [seedChars_length]; omega), seedChars_length]
    have h8 : i + 8 - 8 = i := by omega
    rw [h8]
    exact seedChars_getD 8 _ i hi

theorem C3_witness :
    (generate_seed_from_counter 0).length = 16 ∧
    (generate_seed_from_counter 0).getD 0 0 =
      ALPHANUMERIC_CHARS.getD (((0 % U64) >>> (8 * 0)) % 59) 0 ∧
    (generate_seed_from_counter 0).getD (0 + 8) 0 =
      ALPHANUMERIC_CHARS.getD (((0 * 0x9E3779B97F4A7C15 % U64) >>> (8 * 0)) % 59) 0 :=
  C3_seed_formula 0 0 (by decide)

/-- C5: `Prefix p` matches iff the text starts with `p`, `Suffix s` iff it
ends with `s`, `Both` iff both; construction lower-cases patterns exactly
once when case-insensitive mode is set, the candidate text is folded per
iteration by `maybe_bs58_aware_lowercase`; prefix "AB" matches "ABCD" and
not "abcd" case-sensitively, while "abcd" matches once folded. -/
theorem C5_match_semantics :
    (∀ p t : String, (MatchType.Prefix p).checkMatch t = true ↔ p.data <+: t.data) ∧
    (∀ sf t : String, (MatchType.Suffix sf).checkMatch t = true ↔ sf.data <:+ t.data) ∧
    (∀ p sf t : String,
      (MatchType.Both p sf).checkMatch t = true ↔ p.data <+: t.data ∧ sf.data <:+ t.data) ∧
    (∀ p sf : String,
      mkMatchType (some p) (some sf) true = MatchType.Both (toLowerString p) (toLowerString sf)) ∧
    (∀ p : String, mkMatchType (some p) none true = MatchType.Prefix (toLowerString p)) ∧
    (∀ sf : String, mkMatchType none (some sf) true = MatchType.Suffix (toLowerString sf)) ∧
    (∀ p : String, mkMatchType (some p) none false = MatchType.Prefix p) ∧
    (MatchType.Prefix ("AB")).checkMatch ("ABCD") = true ∧
    (MatchType.Prefix ("AB")).checkMatch ("abcd") = false ∧
    (mkMatchType (some ("AB")) none true).checkMatch
      (maybe_bs58_aware_lowercase ("abcd") true) = true := by
  refine ⟨?_, ?_, ?_, fun p sf => rfl, fun p => rfl, fun sf => rfl, fun p => rfl,
    by decide, by decide, by decide⟩
  · intro p t
    simp [MatchType.checkMatch, strStartsWith, List.isPrefixOf_iff_prefix]
  · intro sf t
    simp [MatchType.checkMatch, strEndsWith, List.isSuffixOf_iff_suffix]
  · intro p sf t
    simp [MatchType.checkMatch, strStartsWith, strEndsWith, Bool.and_eq_true,
      List.isPrefixOf_iff_prefix, List.isSuffixOf_iff_suffix]

theorem C5_witness : ("AB").data <+: ("ABCD").data :=
  (C5_match_semantics.1 ("AB") ("ABCD")).mp (by decide)

/-- C6: after `stop()` every `search_batch` call returns no result with the
state unchanged (so `attempts` never increases), `stop` is idempotent, the
latch reads true after `stop`, and `search_batch` never changes the latch,
so it is one-way across all operations of the searcher. -/
theorem C6_stop_latch :
    (∀ (s : VanitySearcher) (b : Nat), (s.stop).search_batch b = (none, s.stop)) ∧
    (∀ s : VanitySearcher, (s.stop).attempts = s.attempts) ∧
    (∀ s : VanitySearcher, s.stop.stop = s.stop) ∧
    (∀ s : VanitySearcher, s.stop.should_exit = true) ∧
    (∀ (s : VanitySearcher) (b : Nat),
      ((s.search_batch b).2).should_exit = s.should_exit) := by
  refine ⟨fun s b => searchBatchAux_stopped s.stop rfl b, fun s => rfl, fun s => rfl,
    fun s => rfl, fun s b => searchBatchAux_exit_eq b s⟩

theorem C6_witness : (sEmptyPre.stop).search_batch 5 = (none, sEmptyPre.stop) :=
  C6_stop_latch.1 sEmptyPre 5

/-- C7: a zero-size batch is a complete no-op: it returns no result and the
searcher state (in particular `count`, hence `attempts`) is unchanged. -/
theorem C7_zero_batch_noop (s : VanitySearcher) :
    s.search_batch 0 = (none, s) ∧ ((s.search_batch 0).2).attempts = s.attempts :=
  ⟨rfl, rfl⟩

theorem C7_witness :
    sEmptyPre.search_batch 0 = (none, sEmptyPre) ∧
    ((sEmptyPre.search_batch 0).2).attempts = sEmptyPre.attempts :=
  C7_zero_batch_noop sEmptyPre

/-- C9: with neither pattern supplied the constructor builds the empty
prefix, which matches every text; hence any non-stopped searcher with that
match spec returns a result on the very first candidate of any positive
batch, with `attempts` equal to the prior count plus one. -/
theorem C9_empty_spec_first_match (s : VanitySearcher) (n : Nat)
    (hm : s.match_type = MatchType.Prefix (""))
    (hex : s.should_exit = false)
    (hU : s.count + 1 < U64) (hn : 1 ≤ n) :
    (∀ ci : Bool, mkMatchType none none ci = MatchType.Prefix ("")) ∧
    (∀ t : String, (MatchType.Prefix ("")).checkMatch t = true) ∧
    s.search_batch n =
      (some ⟨candidatePubkey s s.count, seedText s s.count, s.count + 1⟩,
        { s with count := s.count + 1 }) := by
  have hall : ∀ t : String, (MatchType.Prefix ("")).checkMatch t = true := by
    intro t
    show strStartsWith t ("") = true
    exact List.isPrefixOf_iff_prefix.mpr (List.nil_prefix)
  refine ⟨fun ci => rfl, hall, ?_⟩
  obtain ⟨m, rfl⟩ : ∃ m, n = m + 1 := ⟨n - 1, by omega⟩
  have hc : candidateCheck s s.count = true := by
    unfold candidateCheck
    rw [hm]
    exact hall _
  show searchBatchAux s (m + 1) = _
  rw [searchBatchAux_first s m hex hc, Nat.mod_eq_of_lt hU]

theorem C9_witness :
    sEmptyPre.search_batch 1 =
      (some ⟨candidatePubkey sEmptyPre sEmptyPre.count, seedText sEmptyPre sEmptyPre.count,
        sEmptyPre.count + 1⟩,
       { sEmptyPre with count := sEmptyPre.count + 1 }) :=
  (C9_empty_spec_first_match sEmptyPre 1 rfl rfl (by decide) (by decide)).2.2

/-- C4: when a batch returns a result, the counter was incremented before
the match test, so the result's `attempts` field is the 1-indexed attempt
number of the matching candidate: it equals `attempts()` right after the
call, exceeds the entry count by the number of candidates consumed (at most
the batch size), the candidate at counter `attempts - 1` matches, and no
candidate after it was tested in that batch (the exit count stops there,
and all earlier candidates of the batch failed the test). -/
theorem C4_attempts_one_indexed (s : VanitySearcher) (b : Nat) (r : VanityResult)
    (s' : VanitySearcher) (hU : s.count + b < U64)
    (h : s.search_batch b = (some r, s')) :
    r.attempts = s'.attempts ∧
    s.count < r.attempts ∧ r.attempts ≤ s.count + b ∧
    candidateCheck s (r.attempts - 1) = true ∧
    (∀ j, s.count ≤ j → j + 1 < r.attempts → candidateCheck s j = false) := by
  obtain ⟨hex, k, hk, hck, hprev, hs', hatt, haddr, hseed⟩ :=
    searchBatchAux_eq_some b s r s' hU h
  refine ⟨?_, by omega, by omega, ?_, ?_⟩
  · show r.attempts = s'.count
    omega
  · have hke : r.attempts - 1 = s.count + k := by omega
    rw [hke]; exact hck
  · intro j hj1 hj2
    have hje : j = s.count + (j - s.count) := by omega
    rw [hje]
    exact hprev _ (by omega)

theorem C4_witness :
    rEmptyPre.attempts = sEmptyPre1.attempts ∧ sEmptyPre.count < rEmptyPre.attempts := by
  have h := C4_attempts_one_indexed sEmptyPre 1 rEmptyPre sEmptyPre1 (by decide) (by decide)
  exact ⟨h.1, h.2.1⟩

/-- C8: a returned result's address is the base58 encoding of the raw
SHA-256 digest of `base_pubkey || seed || owner_pubkey`, where the seed was
generated from the matched counter value plus `count_offset`; the digest is
32 bytes for every input and is used with no further transformation (the
derivation is a pure function, so identical inputs give identical keys). -/
theorem C8_key_derivation (s : VanitySearcher) (b : Nat) (r : VanityResult)
    (s' : VanitySearcher) (hU : s.count + b < U64)
    (h : s.search_batch b = (some r, s')) :
    (∃ k, k < b ∧ r.attempts = s.count + k + 1 ∧
      r.address = encode_32 (sha256Bytes (s.base_pubkey ++
        generate_seed_from_counter ((s.count + k + s.count_offset) % U64) ++
        s.owner_pubkey))) ∧
    (∀ msg : List Nat, (sha256Bytes msg).length = 32) := by
  obtain ⟨hex, k, hk, hck, hprev, hs', hatt, haddr, hseed⟩ :=
    searchBatchAux_eq_some b s r s' hU h
  exact ⟨⟨k, hk, hatt, haddr⟩, sha256Bytes_length⟩

theorem C8_witness : (sha256Bytes []).length = 32 := by
  have h := C8_key_derivation sEmptyPre 1 rEmptyPre sEmptyPre1 (by decide) (by decide)
  exact h.2 []

def base31_1 : List Nat := List.replicate 31 0 ++ [1]

/-- The searcher `new base31_1 zeros32 (some "a") none true 0` constructs. -/
def sC10 : VanitySearcher :=
  ⟨base31_1, zeros32, MatchType.Prefix ("a"), true, 0, 0, false⟩

/-- C10: in case-insensitive mode the returned address is the original
base58 encoding of the candidate key, not the folded text used for the
comparison: for the concrete searcher below (prefix "a", case-insensitive)
the match is found at attempt 2 and the returned address starts with an
upper-case A, so it does not literally start with the supplied pattern,
only case-insensitively. -/
theorem C10_address_unfolded :
    VanitySearcher.new base31_1 zeros32 (some ("a")) none true 0 = some sC10 ∧
    (sC10.search_batch 2).1 =
      some ⟨("A8fZosw3bs43J6mTQjseF8oFpjizjL626QYug4vMoAMH"), ("BAAAAAAAV4Zaw3fr"), 2⟩ ∧
    ("A8fZosw3bs43J6mTQjseF8oFpjizjL626QYug4vMoAMH") = candidatePubkey sC10 1 ∧
    strStartsWith ("A8fZosw3bs43J6mTQjseF8oFpjizjL626QYug4vMoAMH") ("a") = false ∧
    strStartsWith
      (toLowerString ("A8fZosw3bs43J6mTQjseF8oFpjizjL626QYug4vMoAMH")) ("a") = true :=
  ⟨by decide, by decide, by decide, by decide, by decide⟩
